import Mathlib

/-!
Shallow embedding of tokenizer.py from celestiaorg/tokenmetry.

The external tokenizer is abstracted as a function tok : String → Nat
(the source only calls tokenizer.encode and takes the length).  The file
system is abstracted as explicit inputs: a file on disk is a SrcFile
carrying its relative path, its Path.suffix, and an Option String content
where none stands for a read that fails with UnicodeDecodeError or
PermissionError.  Clone-and-scan outcomes are an Except value: ok with the
directory listing of the fresh clone, or error with the str of the raised
exception.  JSON dicts whose key sets differ between the success and the
failure branch are embedded as structures with Option fields, a field
being none when the key is absent from the dict.
-/

namespace Tokenmetry

/-- Python str.replace on character lists: replace every non-overlapping
occurrence of pat, scanning left to right.  Structural recursion on a
fuel argument so the kernel can evaluate it; called with fuel = length of
the list, which always suffices. -/
def pyReplaceFuel (pat rep : List Char) : Nat → List Char → List Char
  | _, [] => []
  | 0, l => l
  | fuel + 1, c :: rest =>
    if pat ≠ [] ∧ pat.isPrefixOf (c :: rest) then
      rep ++ pyReplaceFuel pat rep fuel (List.drop (pat.length - 1) rest)
    else
      c :: pyReplaceFuel pat rep fuel rest

/-- Python str.replace(pat, rep). -/
def pyReplaceList (pat rep l : List Char) : List Char :=
  pyReplaceFuel pat rep l.length l

/-- Python str.lower(), ASCII case folding. -/
def pyLower (s : String) : String := ⟨s.data.map Char.toLower⟩

/-- A file reachable under the scanned directory root.  The suffix field
is Path(file).suffix as Python computes it; content is none when reading
the file raises UnicodeDecodeError or PermissionError. -/
structure SrcFile where
  path : String
  suffix : String
  content : Option String
deriving DecidableEq

/-- The extension allow-list from count_tokens_in_file, line 103. -/
def allowedExtensions : List String := [".go", ".md", ".rs", ".sol"]

/-- count_tokens_in_text: tokenizer.encode then len. -/
def count_tokens_in_text (tok : String → Nat) (text : String) : Nat :=
  tok text

/-- count_tokens_in_file, lines 101-115, for a file that exists: lowercase
the suffix, silently skip unsupported extensions, absorb decode and
permission failures into a zero count.  Returns (token_count, extension). -/
def count_tokens_in_file (tok : String → Nat) (f : SrcFile) : Nat × String :=
  let extension := pyLower f.suffix
  if extension ∈ allowedExtensions then
    match f.content with
    | some content => (count_tokens_in_text tok content, extension)
    | none => (0, extension)
  else
    (0, extension)

/-- count_tokens_in_file including the existence check of lines 98-99: an
absent file (none) raises FileNotFoundError, which the embedding returns
as Except.error. -/
def count_tokens_in_file_checked (tok : String → Nat) (file_path : String)
    (f : Option SrcFile) : Except String (Nat × String) :=
  match f with
  | none => .error ("File not found: " ++ file_path)
  | some f => .ok (count_tokens_in_file tok f)

/-- True exactly when count_tokens_in_file prints the line 114 warning:
allowed extension but the read failed. -/
def count_tokens_in_file_warns (f : SrcFile) : Bool :=
  decide (pyLower f.suffix ∈ allowedExtensions) && f.content.isNone

/-- One entry of the by_extension dict. -/
structure Bucket where
  files : Nat
  tokens : Nat
deriving DecidableEq

def Bucket.zero : Bucket := ⟨0, 0⟩

/-- The by_extension dict: fixed keys .go, .md, .rs, .sol. -/
structure ByExt where
  go : Bucket
  md : Bucket
  rs : Bucket
  sol : Bucket
deriving DecidableEq

def ByExt.zero : ByExt := ⟨.zero, .zero, .zero, .zero⟩

/-- Lines 156-158: if extension in results by_extension, bump that bucket
by one file and token_count tokens; otherwise leave the dict unchanged. -/
def ByExt.bump (b : ByExt) (extension : String) (token_count : Nat) : ByExt :=
  if extension = ".go" then
    { b with go := ⟨b.go.files + 1, b.go.tokens + token_count⟩ }
  else if extension = ".md" then
    { b with md := ⟨b.md.files + 1, b.md.tokens + token_count⟩ }
  else if extension = ".rs" then
    { b with rs := ⟨b.rs.files + 1, b.rs.tokens + token_count⟩ }
  else if extension = ".sol" then
    { b with sol := ⟨b.sol.files + 1, b.sol.tokens + token_count⟩ }
  else b

def ByExt.sumFiles (b : ByExt) : Nat :=
  b.go.files + b.md.files + b.rs.files + b.sol.files

def ByExt.sumTokens (b : ByExt) : Nat :=
  b.go.tokens + b.md.tokens + b.rs.tokens + b.sol.tokens

/-- Pointwise sum of two by_extension dicts, as in lines 299-302. -/
def ByExt.addBuckets (a b : ByExt) : ByExt :=
  ⟨⟨a.go.files + b.go.files, a.go.tokens + b.go.tokens⟩,
   ⟨a.md.files + b.md.files, a.md.tokens + b.md.tokens⟩,
   ⟨a.rs.files + b.rs.files, a.rs.tokens + b.rs.tokens⟩,
   ⟨a.sol.files + b.sol.files, a.sol.tokens + b.sol.tokens⟩⟩

/-- Entry of the files list, lines 162-166. -/
structure FileRecord where
  path : String
  extension : String
  tokens : Nat
deriving DecidableEq

/-- The results dict built by process_directory, lines 133-144. -/
structure DirReport where
  directory : String
  total_files : Nat
  total_tokens : Nat
  by_extension : ByExt
  files : List FileRecord
deriving DecidableEq

def dirInit (directory_path : String) : DirReport :=
  { directory := directory_path
    total_files := 0
    total_tokens := 0
    by_extension := .zero
    files := [] }

/-- Loop body of process_directory, lines 150-166, for one glob-matched
file. -/
def dirStep (tok : String → Nat) (results : DirReport) (f : SrcFile) : DirReport :=
  let tc := count_tokens_in_file tok f
  let token_count := tc.1
  let extension := tc.2
  if 0 < token_count then
    { results with
      total_files := results.total_files + 1
      total_tokens := results.total_tokens + token_count
      by_extension := results.by_extension.bump extension token_count
      files := results.files ++ [⟨f.path, extension, token_count⟩] }
  else results

/-- Suffixes matched by the four glob patterns of line 147, in pattern
order. -/
def globPatterns : List String := [".go", ".md", ".rs", ".sol"]

/-- Files visited by the nested loops of lines 147-149: for each pattern
in order, the listing entries whose suffix the pattern matches, in listing
order (pathlib glob matching is case sensitive on the raw suffix). -/
def orderedFiles (listing : List SrcFile) : List SrcFile :=
  (globPatterns.map fun pat => listing.filter fun f => f.suffix == pat).flatten

/-- process_directory, lines 118-168, on the happy path where the root
exists and is a directory; listing is the complete recursive directory
listing. -/
def process_directory (tok : String → Nat) (directory_path : String)
    (listing : List SrcFile) : DirReport :=
  (orderedFiles listing).foldl (dirStep tok) (dirInit directory_path)

/-- Line 181 and line 200: the trailing path segment of the URL with every
occurrence of ".git" removed. -/
def deriveRepoName (repo_url : String) : String :=
  ⟨pyReplaceList ".git".data [] ((repo_url.data.splitOn '/').getLastD [])⟩

/-- Line 182: the clone target directory chosen by clone_repository. -/
def clone_repository_target (temp_dir repo_url : String) : String :=
  temp_dir ++ "/" ++ deriveRepoName repo_url

/-- The repository sub-dict of lines 213-216 and 223. -/
structure RepoMeta where
  name : String
  url : String
deriving DecidableEq

/-- Result dict of process_repository.  The success branch, lines
205-218, has all keys; the exception branch, lines 222-227, builds a dict
with only repository, error, total_files and total_tokens, so directory,
by_extension and files are none there. -/
structure RepoReport where
  directory : Option String
  repository : RepoMeta
  error : Option String
  total_files : Nat
  total_tokens : Nat
  by_extension : Option ByExt
  files : Option (List FileRecord)
deriving DecidableEq

/-- process_repository, lines 193-227.  fetch abstracts the body of the
try block: ok with the listing of the fresh clone when clone_repository
and the directory walk both succeed, error with str(e) when any exception
is raised. -/
def process_repository (tok : String → Nat) (repo_url temp_dir : String)
    (fetch : Except String (List SrcFile)) : RepoReport :=
  let repo_name := deriveRepoName repo_url
  match fetch with
  | .ok listing =>
    let results := process_directory tok (clone_repository_target temp_dir repo_url) listing
    { directory := some repo_name
      repository := ⟨repo_name, repo_url⟩
      error := none
      total_files := results.total_files
      total_tokens := results.total_tokens
      by_extension := some results.by_extension
      files := some results.files }
  | .error e =>
    { directory := none
      repository := ⟨repo_name, repo_url⟩
      error := some e
      total_files := 0
      total_tokens := 0
      by_extension := none
      files := none }

/-- Summary entry appended to the meta-index repositories list, lines
282-290.  by_extension is none when the key was absent from the repo
results (the .get default of line 288 is the empty dict). -/
structure RepoSummary where
  name : String
  url : String
  data_file : String
  total_files : Nat
  total_tokens : Nat
  by_extension : Option ByExt
  error : Option String
deriving DecidableEq

/-- The summary sub-dict of meta_index_data, lines 246-257. -/
structure BatchSummary where
  total_repositories_configured : Nat
  successful_repositories_processed : Nat
  total_files_across_all_repos : Nat
  total_tokens_across_all_repos : Nat
  by_extension_across_all_repos : ByExt
deriving DecidableEq

structure MetaIndex where
  summary : BatchSummary
  repositories : List RepoSummary
deriving DecidableEq

/-- Environment outcomes for one URL of the batch loop: the clone-and-scan
outcome consumed by process_repository, and whether the json.dump of the
per-repository detail file succeeds (saveErr is str(e) when it fails). -/
structure RepoInput where
  url : String
  fetch : Except String (List SrcFile)
  saveOk : Bool
  saveErr : String

/-- State threaded through the batch loop: the meta-index being built and
the detail files written so far, as (path, content) pairs. -/
structure BatchState where
  meta : MetaIndex
  writes : List (String × RepoReport)
deriving DecidableEq

/-- Python truthiness test of line 294: not summary error, true when the
error field is None or the empty string. -/
def errFalsy : Option String → Bool
  | none => true
  | some s => s == ""

/-- repo_results after the save attempt of lines 270-279: when the report
has no error and the save fails, the error key is set to the empty string
joined with the failure message. -/
def adjustedResults (tok : String → Nat) (temp_dir : String) (inp : RepoInput) : RepoReport :=
  let r := process_repository tok inp.url temp_dir inp.fetch
  if r.error = none ∧ inp.saveOk = false then
    { r with error := some ("; Failed to save individual JSON: " ++ inp.saveErr) }
  else r

/-- repo_summary_for_meta, lines 282-290, built from the adjusted repo
results. -/
def summaryOf (tok : String → Nat) (temp_dir : String) (inp : RepoInput) : RepoSummary :=
  let r := adjustedResults tok temp_dir inp
  { name := r.repository.name
    url := inp.url
    data_file := "repository_data/" ++ r.repository.name ++ ".json"
    total_files := r.total_files
    total_tokens := r.total_tokens
    by_extension := r.by_extension
    error := r.error }

/-- The detail-file write of lines 270-275: performed only when the repo
results carry no error key, and recorded only when the dump succeeds. -/
def writeEvent (tok : String → Nat) (temp_dir : String) (inp : RepoInput) :
    Option (String × RepoReport) :=
  let r := process_repository tok inp.url temp_dir inp.fetch
  if r.error = none ∧ inp.saveOk = true then
    some ("repository_data/" ++ r.repository.name ++ ".json", r)
  else none

/-- Aggregate update of lines 293-302: fold the entry into the running
summary only when its error field is falsy. -/
def aggAdd (s : BatchSummary) (entry : RepoSummary) : BatchSummary :=
  if errFalsy entry.error then
    { s with
      successful_repositories_processed := s.successful_repositories_processed + 1
      total_files_across_all_repos := s.total_files_across_all_repos + entry.total_files
      total_tokens_across_all_repos := s.total_tokens_across_all_repos + entry.total_tokens
      by_extension_across_all_repos :=
        match entry.by_extension with
        | some b => s.by_extension_across_all_repos.addBuckets b
        | none => s.by_extension_across_all_repos }
  else s

/-- One iteration of the batch loop, lines 261-306. -/
def batchStep (tok : String → Nat) (temp_dir : String) (st : BatchState)
    (inp : RepoInput) : BatchState :=
  let entry := summaryOf tok temp_dir inp
  { meta := { summary := aggAdd st.meta.summary entry
              repositories := st.meta.repositories ++ [entry] }
    writes := st.writes ++ (writeEvent tok temp_dir inp).toList }

/-- meta_index_data as initialized in lines 245-259. -/
def batchInit (configured : Nat) : BatchState :=
  { meta := { summary := { total_repositories_configured := configured
                           successful_repositories_processed := 0
                           total_files_across_all_repos := 0
                           total_tokens_across_all_repos := 0
                           by_extension_across_all_repos := .zero }
              repositories := [] }
    writes := [] }

/-- process_multiple_repositories, lines 230-308. -/
def process_multiple_repositories (tok : String → Nat) (temp_dir : String)
    (inputs : List RepoInput) : BatchState :=
  inputs.foldl (batchStep tok temp_dir) (batchInit inputs.length)

/-- Invocation modes of main together with the file-system outcomes each
branch observes.  For file: the target file or none when missing.  For
directory: none when missing, some none when present but not a directory,
some (some listing) otherwise.  For celestiaRepos: the parsed repo list
(none when the repo file is missing or unreadable), the output flag, and
whether writing the meta-index succeeds. -/
inductive CliArg where
  | file (path : String) (f : Option SrcFile)
  | directory (path : String) (d : Option (Option (List SrcFile)))
  | repo (url : String) (temp_dir : String) (fetch : Except String (List SrcFile))
  | celestiaRepos (repoFile : Option (List RepoInput)) (output : Option String)
      (temp_dir : String) (metaSaveOk : Bool)
  | text (s : String)

/-- main, lines 311-447: error c models sys.exit(c), ok v models a normal
return with value v (none when the branch falls off the end). -/
def mainResult (tok : String → Nat) : CliArg → Except Nat (Option Nat)
  | .file _ none => .error 1
  | .file _ (some _) => .ok none
  | .directory _ none => .error 1
  | .directory _ (some none) => .error 1
  | .directory _ (some (some _)) => .ok none
  | .repo url temp_dir fetch =>
    if (process_repository tok url temp_dir fetch).error.isSome then .error 1
    else .ok none
  | .celestiaRepos none _ _ _ => .error 1
  | .celestiaRepos (some _) none _ _ => .error 1
  | .celestiaRepos (some inputs) (some _) temp_dir metaSaveOk =>
    if metaSaveOk then
      let st := process_multiple_repositories tok temp_dir inputs
      .ok (some (if 0 < st.meta.summary.successful_repositories_processed then 0 else 1))
    else .error 1
  | .text _ => .ok none

/-- Lines 450-451: the module entry point calls main() and discards its
return value, so the process exit code is the sys.exit argument when one
is raised and 0 on any normal return. -/
def processExitCode : Except Nat (Option Nat) → Nat
  | .error c => c
  | .ok _ => 0

/-- Sum of bucket.files over the buckets of an optionally-present
by_extension dict; an absent dict has no buckets, so the sum is 0. -/
def optSumFiles : Option ByExt → Nat
  | none => 0
  | some b => b.sumFiles

def optSumTokens : Option ByExt → Nat
  | none => 0
  | some b => b.sumTokens

/-- The files-list entry that process_directory would build for f. -/
def fileRecordOf (tok : String → Nat) (f : SrcFile) : FileRecord :=
  ⟨f.path, (count_tokens_in_file tok f).2, (count_tokens_in_file tok f).1⟩

/-- The files-list contribution of one visited file: present exactly when
its token count is strictly positive. -/
def recordedFile (tok : String → Nat) (f : SrcFile) : Option FileRecord :=
  if 0 < (count_tokens_in_file tok f).1 then some (fileRecordOf tok f) else none

/-- Bucket accumulation step used on summary entries, lines 299-302. -/
def addOptByExt (acc : ByExt) : Option ByExt → ByExt
  | some b => acc.addBuckets b
  | none => acc

/-- Add nf files and nt tokens to the bucket keyed by extension, the
n-fold composite of ByExt.bump on one key. -/
def ByExt.addTo (b : ByExt) (extension : String) (nf nt : Nat) : ByExt :=
  if extension = ".go" then { b with go := ⟨b.go.files + nf, b.go.tokens + nt⟩ }
  else if extension = ".md" then { b with md := ⟨b.md.files + nf, b.md.tokens + nt⟩ }
  else if extension = ".rs" then { b with rs := ⟨b.rs.files + nf, b.rs.tokens + nt⟩ }
  else if extension = ".sol" then { b with sol := ⟨b.sol.files + nf, b.sol.tokens + nt⟩ }
  else b

/-- The listing entries matched by one glob pattern, in listing order. -/
def extGroup (listing : List SrcFile) (pat : String) : List SrcFile :=
  listing.filter fun f => f.suffix == pat

/-- The bucket contents the walk produces for one pattern group: one file
per strictly positive count, and the sum of all token counts (zero-count
files contribute nothing to either component). -/
def groupBucket (tok : String → Nat) (l : List SrcFile) : Bucket :=
  ⟨l.countP fun f => 0 < (count_tokens_in_file tok f).1,
   (l.map fun f => (count_tokens_in_file tok f).1).sum⟩

def dummyRepoSummary : RepoSummary :=
  ⟨"", "", "", 0, 0, none, none⟩

/-- A concrete stand-in tokenizer used in concrete evaluations. -/
def tok0 : String → Nat := String.length

instance instDecEqExceptLocal {ε α : Type} [DecidableEq ε] [DecidableEq α] :
    DecidableEq (Except ε α) := fun a b =>
  match a, b with
  | .error x, .error y => decidable_of_iff (x = y) (by simp)
  | .error _, .ok _ => .isFalse (by simp)
  | .ok _, .error _ => .isFalse (by simp)
  | .ok x, .ok y => decidable_of_iff (x = y) (by simp)

lemma count_tokens_in_file_snd (tok : String → Nat) (f : SrcFile) :
    (count_tokens_in_file tok f).2 = pyLower f.suffix := by
  rcases f with ⟨p, sfx, cont⟩
  unfold count_tokens_in_file
  rcases cont with _ | c <;> dsimp only <;> split <;> rfl

lemma ByExt_bump_sums {extension : String} (h : extension ∈ globPatterns)
    (b : ByExt) (n : Nat) :
    (b.bump extension n).sumFiles = b.sumFiles + 1 ∧
      (b.bump extension n).sumTokens = b.sumTokens + n := by
  simp only [globPatterns, List.mem_cons, List.not_mem_nil, or_false] at h
  rcases h with h | h | h | h <;> subst h <;>
    refine ⟨?_, ?_⟩ <;>
      simp [ByExt.bump, ByExt.sumFiles, ByExt.sumTokens] <;> omega

lemma dirStep_sums (tok : String → Nat) {r : DirReport} {f : SrcFile}
    (hf : f.suffix ∈ globPatterns)
    (h1 : r.total_files = r.by_extension.sumFiles)
    (h2 : r.total_tokens = r.by_extension.sumTokens) :
    (dirStep tok r f).total_files = (dirStep tok r f).by_extension.sumFiles ∧
      (dirStep tok r f).total_tokens = (dirStep tok r f).by_extension.sumTokens := by
  have hext : (count_tokens_in_file tok f).2 ∈ globPatterns := by
    rw [count_tokens_in_file_snd]
    simp only [globPatterns, List.mem_cons, List.not_mem_nil, or_false] at hf
    rcases hf with h | h | h | h <;> rw [h] <;> decide
  have hb := ByExt_bump_sums hext r.by_extension (count_tokens_in_file tok f).1
  unfold dirStep
  dsimp only
  split
  · refine ⟨?_, ?_⟩ <;> simp [hb.1, hb.2, h1, h2]
  · exact ⟨h1, h2⟩

lemma orderedFiles_suffix {listing : List SrcFile} {f : SrcFile}
    (hf : f ∈ orderedFiles listing) : f.suffix ∈ globPatterns := by
  simp only [orderedFiles, List.mem_flatten, List.mem_map] at hf
  obtain ⟨l, ⟨pat, hpat, rfl⟩, hfl⟩ := hf
  have heq : f.suffix = pat := by
    simpa [beq_iff_eq] using (List.mem_filter.mp hfl).2
  rw [heq]
  exact hpat

lemma foldl_dirStep_sums (tok : String → Nat) :
    ∀ (l : List SrcFile) (r : DirReport), (∀ f ∈ l, f.suffix ∈ globPatterns) →
      r.total_files = r.by_extension.sumFiles →
      r.total_tokens = r.by_extension.sumTokens →
      (l.foldl (dirStep tok) r).total_files = (l.foldl (dirStep tok) r).by_extension.sumFiles ∧
        (l.foldl (dirStep tok) r).total_tokens = (l.foldl (dirStep tok) r).by_extension.sumTokens
  | [], r, _, h1, h2 => ⟨h1, h2⟩
  | f :: l, r, hall, h1, h2 => by
    have hf := hall f (List.mem_cons_self f l)
    have hstep := dirStep_sums tok hf h1 h2
    exact foldl_dirStep_sums tok l (dirStep tok r f)
      (fun g hg => hall g (List.mem_cons_of_mem f hg)) hstep.1 hstep.2

lemma foldl_dirStep_files (tok : String → Nat) :
    ∀ (l : List SrcFile) (r : DirReport),
      (l.foldl (dirStep tok) r).files = r.files ++ l.filterMap (recordedFile tok)
  | [], r => by simp
  | f :: l, r => by
    rw [List.foldl_cons, foldl_dirStep_files tok l, List.filterMap_cons]
    unfold dirStep
    dsimp only
    by_cases h : 0 < (count_tokens_in_file tok f).1
    · rw [if_pos h]
      simp [recordedFile, fileRecordOf, h]
    · rw [if_neg h]
      simp [recordedFile, h]

lemma foldl_dirStep_total_tokens (tok : String → Nat) :
    ∀ (l : List SrcFile) (r : DirReport),
      (l.foldl (dirStep tok) r).total_tokens
        = r.total_tokens + (l.map fun f => (count_tokens_in_file tok f).1).sum
  | [], r => by simp
  | f :: l, r => by
    rw [List.foldl_cons, foldl_dirStep_total_tokens tok l]
    unfold dirStep
    dsimp only
    split
    · simp [Nat.add_assoc]
    · rename_i h
      have : (count_tokens_in_file tok f).1 = 0 := by omega
      simp [this]

lemma foldl_dirStep_total_files (tok : String → Nat) :
    ∀ (l : List SrcFile) (r : DirReport),
      (l.foldl (dirStep tok) r).total_files
        = r.total_files + (l.countP fun f => 0 < (count_tokens_in_file tok f).1)
  | [], r => by simp
  | f :: l, r => by
    rw [List.foldl_cons, foldl_dirStep_total_files tok l]
    unfold dirStep
    dsimp only
    split
    · rename_i h
      rw [List.countP_cons_of_pos _ _ (by simpa using h)]
      dsimp only
      omega
    · rename_i h
      rw [List.countP_cons_of_neg _ _ (by simpa using h)]

lemma dirStep_zero {tok : String → Nat} {g : SrcFile}
    (h : (count_tokens_in_file tok g).1 = 0) (r : DirReport) :
    dirStep tok r g = r := by
  unfold dirStep
  simp [h]

lemma foldl_dirStep_append_single (tok : String → Nat) (g : SrcFile) (listing : List SrcFile) :
    ∀ (pats : List String) (r : DirReport),
      ((count_tokens_in_file tok g).1 = 0 ∨ g.suffix ∉ pats) →
      ((pats.map fun pat => (listing ++ [g]).filter fun f => f.suffix == pat).flatten).foldl
          (dirStep tok) r
        = ((pats.map fun pat => listing.filter fun f => f.suffix == pat).flatten).foldl
            (dirStep tok) r
  | [], _, _ => rfl
  | p :: pats, r, h => by
    have h' : (count_tokens_in_file tok g).1 = 0 ∨ g.suffix ∉ pats := by
      rcases h with h | h
      · exact Or.inl h
      · exact Or.inr fun hm => h (List.mem_cons_of_mem p hm)
    rw [List.map_cons, List.flatten_cons, List.foldl_append, List.map_cons,
      List.flatten_cons, List.foldl_append, List.filter_append, List.foldl_append]
    by_cases hp : (g.suffix == p) = true
    · have hz : (count_tokens_in_file tok g).1 = 0 := by
        rcases h with h | h
        · exact h
        · exact absurd (by rw [beq_iff_eq] at hp; rw [hp]; exact List.mem_cons_self p pats) h
      rw [show List.filter (fun f => f.suffix == p) [g] = [g] by
            simp [List.filter_cons, hp]]
      rw [List.foldl_cons, List.foldl_nil, dirStep_zero hz]
      exact foldl_dirStep_append_single tok g listing pats _ h'
    · rw [show List.filter (fun f => f.suffix == p) [g] = [] by
            simp [List.filter_cons, hp]]
      rw [List.foldl_nil]
      exact foldl_dirStep_append_single tok g listing pats _ h'

lemma process_directory_sums (tok : String → Nat) (dp : String) (listing : List SrcFile) :
    (process_directory tok dp listing).total_files
        = (process_directory tok dp listing).by_extension.sumFiles ∧
      (process_directory tok dp listing).total_tokens
        = (process_directory tok dp listing).by_extension.sumTokens := by
  unfold process_directory
  exact foldl_dirStep_sums tok _ _ (fun f hf => orderedFiles_suffix hf) rfl rfl

lemma ByExt_addTo_zero (b : ByExt) (p : String) : b.addTo p 0 0 = b := by
  unfold ByExt.addTo
  split_ifs <;> simp

lemma ByExt_bump_addTo (b : ByExt) (p : String) (n c t : Nat) :
    (b.bump p n).addTo p c t = b.addTo p (c + 1) (n + t) := by
  unfold ByExt.bump ByExt.addTo
  split_ifs <;> simp <;> omega

lemma foldl_dirStep_group (tok : String → Nat) (p : String) (hp : pyLower p = p) :
    ∀ (l : List SrcFile) (r : DirReport), (∀ f ∈ l, f.suffix = p) →
      (l.foldl (dirStep tok) r).by_extension
        = r.by_extension.addTo p (l.countP fun f => 0 < (count_tokens_in_file tok f).1)
            ((l.map fun f => (count_tokens_in_file tok f).1).sum)
  | [], r, _ => by
    rw [List.foldl_nil, List.countP_nil, List.map_nil, List.sum_nil, ByExt_addTo_zero]
  | f :: l, r, hall => by
    rw [List.foldl_cons,
      foldl_dirStep_group tok p hp l (dirStep tok r f)
        (fun x hx => hall x (List.mem_cons_of_mem f hx)),
      List.map_cons, List.sum_cons]
    have hf : f.suffix = p := hall f (List.mem_cons_self f l)
    have hext : (count_tokens_in_file tok f).2 = p := by
      rw [count_tokens_in_file_snd, hf, hp]
    by_cases hc : 0 < (count_tokens_in_file tok f).1
    · rw [List.countP_cons_of_pos _ _ (by simpa using hc)]
      unfold dirStep
      dsimp only
      rw [if_pos hc]
      dsimp only
      rw [hext, ByExt_bump_addTo]
    · rw [List.countP_cons_of_neg _ _ (by simpa using hc)]
      have hc0 : (count_tokens_in_file tok f).1 = 0 := by omega
      rw [dirStep_zero hc0, hc0, Nat.zero_add]

lemma process_directory_total_files_char (tok : String → Nat) (dp : String)
    (listing : List SrcFile) :
    (process_directory tok dp listing).total_files
      = (orderedFiles listing).countP fun f => 0 < (count_tokens_in_file tok f).1 := by
  unfold process_directory
  rw [foldl_dirStep_total_files]
  simp [dirInit]

lemma process_directory_total_tokens_char (tok : String → Nat) (dp : String)
    (listing : List SrcFile) :
    (process_directory tok dp listing).total_tokens
      = ((orderedFiles listing).map fun f => (count_tokens_in_file tok f).1).sum := by
  unfold process_directory
  rw [foldl_dirStep_total_tokens]
  simp [dirInit]

lemma process_directory_byext_char (tok : String → Nat) (dp : String)
    (listing : List SrcFile) :
    (process_directory tok dp listing).by_extension
      = ⟨groupBucket tok (extGroup listing ".go"), groupBucket tok (extGroup listing ".md"),
         groupBucket tok (extGroup listing ".rs"),
         groupBucket tok (extGroup listing ".sol")⟩ := by
  have hmem : ∀ (p : String) (f : SrcFile),
      f ∈ listing.filter (fun f => f.suffix == p) → f.suffix = p :=
    fun p f hf => beq_iff_eq.mp (List.mem_filter.mp hf).2
  unfold process_directory orderedFiles globPatterns
  simp only [List.map_cons, List.map_nil, List.flatten_cons, List.flatten_nil,
    List.append_nil]
  rw [List.foldl_append, List.foldl_append, List.foldl_append]
  rw [foldl_dirStep_group tok ".sol" (by decide) _ _ (hmem ".sol"),
    foldl_dirStep_group tok ".rs" (by decide) _ _ (hmem ".rs"),
    foldl_dirStep_group tok ".md" (by decide) _ _ (hmem ".md"),
    foldl_dirStep_group tok ".go" (by decide) _ _ (hmem ".go")]
  simp [ByExt.addTo, dirInit, ByExt.zero, Bucket.zero, groupBucket, extGroup]

lemma process_repository_repository (tok : String → Nat) (url temp : String)
    (fetch : Except String (List SrcFile)) :
    (process_repository tok url temp fetch).repository = ⟨deriveRepoName url, url⟩ := by
  rcases fetch with e | l <;> rfl

lemma saveFailMsg_ne_empty (s : String) :
    ("; Failed to save individual JSON: " ++ s) ≠ "" := by
  intro h
  have hl := congrArg String.length h
  rw [String.length_append] at hl
  have h34 : ("; Failed to save individual JSON: " : String).length = 34 := rfl
  have h0 : ("" : String).length = 0 := rfl
  omega

lemma foldl_batchStep_char (tok : String → Nat) (temp : String) :
    ∀ (l : List RepoInput) (st : BatchState),
      l.foldl (batchStep tok temp) st =
        { meta := { summary := (l.map (summaryOf tok temp)).foldl aggAdd st.meta.summary
                    repositories := st.meta.repositories ++ l.map (summaryOf tok temp) }
          writes := st.writes ++ l.filterMap (writeEvent tok temp) }
  | [], st => by simp
  | inp :: l, st => by
    rw [List.foldl_cons, foldl_batchStep_char tok temp l,
      List.map_cons, List.foldl_cons, List.filterMap_cons]
    unfold batchStep
    rcases hw : writeEvent tok temp inp with _ | w <;>
      simp [hw, List.append_assoc]

lemma process_multiple_char (tok : String → Nat) (temp : String) (inputs : List RepoInput) :
    process_multiple_repositories tok temp inputs =
      { meta := { summary := (inputs.map (summaryOf tok temp)).foldl aggAdd
                    (batchInit inputs.length).meta.summary
                  repositories := inputs.map (summaryOf tok temp) }
        writes := inputs.filterMap (writeEvent tok temp) } := by
  unfold process_multiple_repositories
  rw [foldl_batchStep_char]
  simp [batchInit]

lemma foldl_aggAdd_char :
    ∀ (entries : List RepoSummary) (s : BatchSummary),
      (entries.foldl aggAdd s).total_repositories_configured = s.total_repositories_configured ∧
      (entries.foldl aggAdd s).successful_repositories_processed
        = s.successful_repositories_processed
            + (entries.filter fun e => errFalsy e.error).length ∧
      (entries.foldl aggAdd s).total_files_across_all_repos
        = s.total_files_across_all_repos
            + ((entries.filter fun e => errFalsy e.error).map fun e => e.total_files).sum ∧
      (entries.foldl aggAdd s).total_tokens_across_all_repos
        = s.total_tokens_across_all_repos
            + ((entries.filter fun e => errFalsy e.error).map fun e => e.total_tokens).sum ∧
      (entries.foldl aggAdd s).by_extension_across_all_repos
        = (entries.filter fun e => errFalsy e.error).foldl
            (fun acc e => addOptByExt acc e.by_extension) s.by_extension_across_all_repos
  | [], s => by simp
  | e :: entries, s => by
    rw [List.foldl_cons]
    obtain ⟨ih1, ih2, ih3, ih4, ih5⟩ := foldl_aggAdd_char entries (aggAdd s e)
    by_cases he : errFalsy e.error = true
    · have ha : aggAdd s e = { s with
          successful_repositories_processed := s.successful_repositories_processed + 1
          total_files_across_all_repos := s.total_files_across_all_repos + e.total_files
          total_tokens_across_all_repos := s.total_tokens_across_all_repos + e.total_tokens
          by_extension_across_all_repos :=
            addOptByExt s.by_extension_across_all_repos e.by_extension } := by
        unfold aggAdd addOptByExt
        rw [if_pos he]
      rw [show List.filter (fun e => errFalsy e.error) (e :: entries)
            = e :: List.filter (fun e => errFalsy e.error) entries by
          simp [List.filter_cons, he]]
      rw [ha] at ih1 ih2 ih3 ih4 ih5 ⊢
      dsimp only at ih1 ih2 ih3 ih4 ih5
      refine ⟨ih1, ?_, ?_, ?_, ?_⟩
      · rw [ih2, List.length_cons]
        omega
      · rw [ih3, List.map_cons, List.sum_cons]
        omega
      · rw [ih4, List.map_cons, List.sum_cons]
        omega
      · rw [List.foldl_cons]
        exact ih5
    · have ha : aggAdd s e = s := by
        unfold aggAdd
        rw [if_neg he]
      rw [show List.filter (fun e => errFalsy e.error) (e :: entries)
            = List.filter (fun e => errFalsy e.error) entries by
          simp [List.filter_cons, he]]
      rw [ha] at ih1 ih2 ih3 ih4 ih5 ⊢
      exact ⟨ih1, ih2, ih3, ih4, ih5⟩

lemma summaryOf_fetch_error (tok : String → Nat) (temp url e saveErr : String)
    (saveOk : Bool) :
    summaryOf tok temp ⟨url, .error e, saveOk, saveErr⟩ =
      ⟨deriveRepoName url, url, "repository_data/" ++ deriveRepoName url ++ ".json",
        0, 0, none, some e⟩ := by
  unfold summaryOf adjustedResults process_repository
  dsimp only
  rw [if_neg (by simp)]

lemma summaryOf_fetch_ok_saved (tok : String → Nat) (temp url saveErr : String)
    (l : List SrcFile) :
    summaryOf tok temp ⟨url, .ok l, true, saveErr⟩ =
      ⟨deriveRepoName url, url, "repository_data/" ++ deriveRepoName url ++ ".json",
        (process_directory tok (clone_repository_target temp url) l).total_files,
        (process_directory tok (clone_repository_target temp url) l).total_tokens,
        some (process_directory tok (clone_repository_target temp url) l).by_extension,
        none⟩ := by
  unfold summaryOf adjustedResults process_repository
  dsimp only
  rw [if_neg (by simp)]

lemma summaryOf_fetch_ok_unsaved (tok : String → Nat) (temp url saveErr : String)
    (l : List SrcFile) :
    summaryOf tok temp ⟨url, .ok l, false, saveErr⟩ =
      ⟨deriveRepoName url, url, "repository_data/" ++ deriveRepoName url ++ ".json",
        (process_directory tok (clone_repository_target temp url) l).total_files,
        (process_directory tok (clone_repository_target temp url) l).total_tokens,
        some (process_directory tok (clone_repository_target temp url) l).by_extension,
        some ("; Failed to save individual JSON: " ++ saveErr)⟩ := by
  unfold summaryOf adjustedResults process_repository
  dsimp only
  rw [if_pos ⟨rfl, rfl⟩]

lemma summaryOf_sums (tok : String → Nat) (temp : String) (inp : RepoInput) :
    (summaryOf tok temp inp).total_files = optSumFiles (summaryOf tok temp inp).by_extension ∧
      (summaryOf tok temp inp).total_tokens
        = optSumTokens (summaryOf tok temp inp).by_extension := by
  rcases inp with ⟨url, e | l, (_ | _), sErr⟩
  · rw [summaryOf_fetch_error]
    exact ⟨rfl, rfl⟩
  · rw [summaryOf_fetch_error]
    exact ⟨rfl, rfl⟩
  · rw [summaryOf_fetch_ok_unsaved]
    exact process_directory_sums tok (clone_repository_target temp url) l
  · rw [summaryOf_fetch_ok_saved]
    exact process_directory_sums tok (clone_repository_target temp url) l

lemma sums_falsy_eq_isNone (tok : String → Nat) (temp : String) :
    ∀ (inputs : List RepoInput),
      ((((inputs.map (summaryOf tok temp)).filter fun e => errFalsy e.error).map
            fun e => e.total_files).sum
        = (((inputs.map (summaryOf tok temp)).filter fun e => e.error.isNone).map
            fun e => e.total_files).sum) ∧
      ((((inputs.map (summaryOf tok temp)).filter fun e => errFalsy e.error).map
            fun e => e.total_tokens).sum
        = (((inputs.map (summaryOf tok temp)).filter fun e => e.error.isNone).map
            fun e => e.total_tokens).sum) ∧
      ∀ acc : ByExt,
        ((inputs.map (summaryOf tok temp)).filter fun e => errFalsy e.error).foldl
            (fun acc e => addOptByExt acc e.by_extension) acc
          = ((inputs.map (summaryOf tok temp)).filter fun e => e.error.isNone).foldl
              (fun acc e => addOptByExt acc e.by_extension) acc
  | [] => ⟨rfl, rfl, fun _ => rfl⟩
  | inp :: inputs => by
    obtain ⟨ih1, ih2, ih3⟩ := sums_falsy_eq_isNone tok temp inputs
    rcases inp with ⟨url, e | l, sOk, sErr⟩
    · by_cases he : (e == "") = true
      · rw [List.map_cons, summaryOf_fetch_error]
        rw [show List.filter (fun e => errFalsy e.error)
              (RepoSummary.mk (deriveRepoName url) url
                  ("repository_data/" ++ deriveRepoName url ++ ".json") 0 0 none (some e)
                :: (inputs.map (summaryOf tok temp)))
            = ⟨deriveRepoName url, url,
                "repository_data/" ++ deriveRepoName url ++ ".json", 0, 0, none, some e⟩
              :: ((inputs.map (summaryOf tok temp)).filter fun e => errFalsy e.error) by
          simp [List.filter_cons, errFalsy, he]]
        rw [show List.filter (fun e => e.error.isNone)
              (RepoSummary.mk (deriveRepoName url) url
                  ("repository_data/" ++ deriveRepoName url ++ ".json") 0 0 none (some e)
                :: (inputs.map (summaryOf tok temp)))
            = (inputs.map (summaryOf tok temp)).filter fun e => e.error.isNone by
          simp [List.filter_cons]]
        refine ⟨?_, ?_, ?_⟩
        · rw [List.map_cons, List.sum_cons, ih1]
          dsimp only
          omega
        · rw [List.map_cons, List.sum_cons, ih2]
          dsimp only
          omega
        · intro acc
          rw [List.foldl_cons]
          exact ih3 acc
      · rw [List.map_cons, summaryOf_fetch_error]
        rw [show List.filter (fun e => errFalsy e.error)
              (RepoSummary.mk (deriveRepoName url) url
                  ("repository_data/" ++ deriveRepoName url ++ ".json") 0 0 none (some e)
                :: (inputs.map (summaryOf tok temp)))
            = (inputs.map (summaryOf tok temp)).filter fun e => errFalsy e.error by
          simp [List.filter_cons, errFalsy, he]]
        rw [show List.filter (fun e => e.error.isNone)
              (RepoSummary.mk (deriveRepoName url) url
                  ("repository_data/" ++ deriveRepoName url ++ ".json") 0 0 none (some e)
                :: (inputs.map (summaryOf tok temp)))
            = (inputs.map (summaryOf tok temp)).filter fun e => e.error.isNone by
          simp [List.filter_cons]]
        exact ⟨ih1, ih2, ih3⟩
    · rcases sOk with _ | _
      · rw [List.map_cons, summaryOf_fetch_ok_unsaved]
        rw [show List.filter (fun e => errFalsy e.error)
              (RepoSummary.mk (deriveRepoName url) url
                  ("repository_data/" ++ deriveRepoName url ++ ".json")
                  (process_directory tok (clone_repository_target temp url) l).total_files
                  (process_directory tok (clone_repository_target temp url) l).total_tokens
                  (some (process_directory tok (clone_repository_target temp url) l).by_extension)
                  (some ("; Failed to save individual JSON: " ++ sErr))
                :: (inputs.map (summaryOf tok temp)))
            = (inputs.map (summaryOf tok temp)).filter fun e => errFalsy e.error by
          simp only [List.filter_cons, errFalsy]
          rw [if_neg (by simp [saveFailMsg_ne_empty sErr])]]
        rw [show List.filter (fun e => e.error.isNone)
              (RepoSummary.mk (deriveRepoName url) url
                  ("repository_data/" ++ deriveRepoName url ++ ".json")
                  (process_directory tok (clone_repository_target temp url) l).total_files
                  (process_directory tok (clone_repository_target temp url) l).total_tokens
                  (some (process_directory tok (clone_repository_target temp url) l).by_extension)
                  (some ("; Failed to save individual JSON: " ++ sErr))
                :: (inputs.map (summaryOf tok temp)))
            = (inputs.map (summaryOf tok temp)).filter fun e => e.error.isNone by
          simp [List.filter_cons]]
        exact ⟨ih1, ih2, ih3⟩
      · rw [List.map_cons, summaryOf_fetch_ok_saved]
        rw [show List.filter (fun e => errFalsy e.error)
              (RepoSummary.mk (deriveRepoName url) url
                  ("repository_data/" ++ deriveRepoName url ++ ".json")
                  (process_directory tok (clone_repository_target temp url) l).total_files
                  (process_directory tok (clone_repository_target temp url) l).total_tokens
                  (some (process_directory tok (clone_repository_target temp url) l).by_extension)
                  none
                :: (inputs.map (summaryOf tok temp)))
            = RepoSummary.mk (deriveRepoName url) url
                  ("repository_data/" ++ deriveRepoName url ++ ".json")
                  (process_directory tok (clone_repository_target temp url) l).total_files
                  (process_directory tok (clone_repository_target temp url) l).total_tokens
                  (some (process_directory tok (clone_repository_target temp url) l).by_extension)
                  none
                :: ((inputs.map (summaryOf tok temp)).filter fun e => errFalsy e.error) by
          simp [List.filter_cons, errFalsy]]
        rw [show List.filter (fun e => e.error.isNone)
              (RepoSummary.mk (deriveRepoName url) url
                  ("repository_data/" ++ deriveRepoName url ++ ".json")
                  (process_directory tok (clone_repository_target temp url) l).total_files
                  (process_directory tok (clone_repository_target temp url) l).total_tokens
                  (some (process_directory tok (clone_repository_target temp url) l).by_extension)
                  none
                :: (inputs.map (summaryOf tok temp)))
            = RepoSummary.mk (deriveRepoName url) url
                  ("repository_data/" ++ deriveRepoName url ++ ".json")
                  (process_directory tok (clone_repository_target temp url) l).total_files
                  (process_directory tok (clone_repository_target temp url) l).total_tokens
                  (some (process_directory tok (clone_repository_target temp url) l).by_extension)
                  none
                :: ((inputs.map (summaryOf tok temp)).filter fun e => e.error.isNone) by
          simp [List.filter_cons]]
        refine ⟨?_, ?_, ?_⟩
        · rw [List.map_cons, List.sum_cons, List.map_cons, List.sum_cons, ih1]
        · rw [List.map_cons, List.sum_cons, List.map_cons, List.sum_cons, ih2]
        · intro acc
          rw [List.foldl_cons, List.foldl_cons]
          exact ih3 _

lemma writeEvent_fetch_error (tok : String → Nat) (temp url e saveErr : String)
    (saveOk : Bool) :
    writeEvent tok temp ⟨url, .error e, saveOk, saveErr⟩ = none := by
  unfold writeEvent process_repository
  dsimp only
  rw [if_neg (by simp)]

lemma writeEvent_fetch_ok_saved (tok : String → Nat) (temp url saveErr : String)
    (l : List SrcFile) :
    writeEvent tok temp ⟨url, .ok l, true, saveErr⟩ =
      some ("repository_data/" ++ deriveRepoName url ++ ".json",
        process_repository tok url temp (.ok l)) := by
  unfold writeEvent
  dsimp only
  rw [if_pos ⟨rfl, rfl⟩, process_repository_repository]

lemma writeEvent_fetch_ok_unsaved (tok : String → Nat) (temp url saveErr : String)
    (l : List SrcFile) :
    writeEvent tok temp ⟨url, .ok l, false, saveErr⟩ = none := by
  unfold writeEvent
  dsimp only
  rw [if_neg fun hc => by exact absurd hc.2 (by simp)]

lemma writeEvent_inv (tok : String → Nat) (temp : String) (inp : RepoInput)
    (w : String × RepoReport) (hw : writeEvent tok temp inp = some w) :
    (process_repository tok inp.url temp inp.fetch).error = none ∧ inp.saveOk = true ∧
      w = ("repository_data/" ++ deriveRepoName inp.url ++ ".json",
        process_repository tok inp.url temp inp.fetch) := by
  rcases inp with ⟨url, e | l, (_ | _), sErr⟩
  · rw [writeEvent_fetch_error] at hw
    exact absurd hw (by simp)
  · rw [writeEvent_fetch_error] at hw
    exact absurd hw (by simp)
  · rw [writeEvent_fetch_ok_unsaved] at hw
    exact absurd hw (by simp)
  · rw [writeEvent_fetch_ok_saved] at hw
    exact ⟨rfl, rfl, (Option.some_inj.mp hw).symm⟩

lemma repoDataPath_inj {a b : String}
    (h : "repository_data/" ++ a ++ ".json" = "repository_data/" ++ b ++ ".json") :
    a = b := by
  have hd := congrArg String.data h
  simp only [String.data_append, List.append_assoc] at hd
  exact String.ext (List.append_cancel_right (List.append_cancel_left hd))

lemma repositories_getD (tok : String → Nat) (temp : String) (inputs : List RepoInput)
    (i : Nat) (hi : i < inputs.length) :
    (process_multiple_repositories tok temp inputs).meta.repositories.getD i dummyRepoSummary
      = summaryOf tok temp (inputs.get ⟨i, hi⟩) := by
  rw [process_multiple_char]
  dsimp only
  rw [List.getD_eq_getElem?_getD, List.getElem?_map,
    List.getElem?_eq_getElem hi]
  rfl

lemma ByExt_addBuckets_sums (a b : ByExt) :
    (a.addBuckets b).sumFiles = a.sumFiles + b.sumFiles ∧
      (a.addBuckets b).sumTokens = a.sumTokens + b.sumTokens := by
  refine ⟨?_, ?_⟩ <;>
    simp only [ByExt.addBuckets, ByExt.sumFiles, ByExt.sumTokens] <;> omega

lemma foldl_aggAdd_sums :
    ∀ (entries : List RepoSummary) (s : BatchSummary),
      s.total_files_across_all_repos = s.by_extension_across_all_repos.sumFiles →
      s.total_tokens_across_all_repos = s.by_extension_across_all_repos.sumTokens →
      (∀ e ∈ entries, e.total_files = optSumFiles e.by_extension ∧
        e.total_tokens = optSumTokens e.by_extension) →
      (entries.foldl aggAdd s).total_files_across_all_repos
          = (entries.foldl aggAdd s).by_extension_across_all_repos.sumFiles ∧
        (entries.foldl aggAdd s).total_tokens_across_all_repos
          = (entries.foldl aggAdd s).by_extension_across_all_repos.sumTokens
  | [], s, h1, h2, _ => ⟨h1, h2⟩
  | e :: entries, s, h1, h2, hent => by
    rw [List.foldl_cons]
    have he := hent e (List.mem_cons_self e entries)
    have hrest : ∀ x ∈ entries, x.total_files = optSumFiles x.by_extension ∧
        x.total_tokens = optSumTokens x.by_extension :=
      fun x hx => hent x (List.mem_cons_of_mem e hx)
    refine foldl_aggAdd_sums entries (aggAdd s e) ?_ ?_ hrest
    · unfold aggAdd
      split
      · rcases hb : e.by_extension with _ | b
        · rw [he.1, hb]
          dsimp only [optSumFiles]
          omega
        · rw [(ByExt_addBuckets_sums s.by_extension_across_all_repos b).1, he.1, hb]
          dsimp only [optSumFiles]
          omega
      · exact h1
    · unfold aggAdd
      split
      · rcases hb : e.by_extension with _ | b
        · rw [he.2, hb]
          dsimp only [optSumTokens]
          omega
        · rw [(ByExt_addBuckets_sums s.by_extension_across_all_repos b).2, he.2, hb]
          dsimp only [optSumTokens]
          omega
      · exact h2

lemma summaryOf_fields (tok : String → Nat) (temp : String) (inp : RepoInput) :
    (summaryOf tok temp inp).name = deriveRepoName inp.url ∧
      (summaryOf tok temp inp).url = inp.url ∧
      (summaryOf tok temp inp).data_file
        = "repository_data/" ++ deriveRepoName inp.url ++ ".json" := by
  rcases inp with ⟨url, e | l, (_ | _), sErr⟩
  · rw [summaryOf_fetch_error]
    exact ⟨rfl, rfl, rfl⟩
  · rw [summaryOf_fetch_error]
    exact ⟨rfl, rfl, rfl⟩
  · rw [summaryOf_fetch_ok_unsaved]
    exact ⟨rfl, rfl, rfl⟩
  · rw [summaryOf_fetch_ok_saved]
    exact ⟨rfl, rfl, rfl⟩

lemma writeEvent_of_success (tok : String → Nat) (temp : String) (inp : RepoInput)
    (hok : (process_repository tok inp.url temp inp.fetch).error = none)
    (hsave : inp.saveOk = true) :
    writeEvent tok temp inp =
      some ("repository_data/" ++ deriveRepoName inp.url ++ ".json",
        process_repository tok inp.url temp inp.fetch) := by
  rcases inp with ⟨url, e | l, (_ | _), sErr⟩
  · exact Option.noConfusion hok
  · exact Option.noConfusion hok
  · exact Bool.noConfusion hsave
  · exact writeEvent_fetch_ok_saved tok temp url sErr l

/-- The name derivation as the spec words it, for comparison with the
source-derived deriveRepoName: the trailing path segment of the URL with
a version-control suffix (".git") stripped. -/
def deriveRepoNameSpec (repo_url : String) : String :=
  let segment := (repo_url.data.splitOn '/').getLastD []
  if ".git".data.isSuffixOf segment then ⟨segment.take (segment.length - 4)⟩
  else ⟨segment⟩

/-- C1: for every directory report, total_files equals the sum of
bucket.files over the extension buckets and total_tokens the sum of
bucket.tokens; the same equalities hold for the repository report (whose
failure shape has no buckets, summing to zero) and for the batch summary
aggregate fields. -/
theorem C1_totals_equal_bucket_sums (tok : String → Nat) (dp temp url : String)
    (listing : List SrcFile) (fetch : Except String (List SrcFile))
    (inputs : List RepoInput) :
    ((process_directory tok dp listing).total_files
        = (process_directory tok dp listing).by_extension.sumFiles ∧
      (process_directory tok dp listing).total_tokens
        = (process_directory tok dp listing).by_extension.sumTokens) ∧
    ((process_repository tok url temp fetch).total_files
        = optSumFiles (process_repository tok url temp fetch).by_extension ∧
      (process_repository tok url temp fetch).total_tokens
        = optSumTokens (process_repository tok url temp fetch).by_extension) ∧
    ((process_multiple_repositories tok temp inputs).meta.summary.total_files_across_all_repos
        = (process_multiple_repositories tok temp
            inputs).meta.summary.by_extension_across_all_repos.sumFiles ∧
      (process_multiple_repositories tok temp inputs).meta.summary.total_tokens_across_all_repos
        = (process_multiple_repositories tok temp
            inputs).meta.summary.by_extension_across_all_repos.sumTokens) := by
  refine ⟨process_directory_sums tok dp listing, ?_, ?_⟩
  · rcases fetch with e | l
    · exact ⟨rfl, rfl⟩
    · exact process_directory_sums tok (clone_repository_target temp url) l
  · rw [process_multiple_char]
    dsimp only
    refine foldl_aggAdd_sums (inputs.map (summaryOf tok temp))
      (batchInit inputs.length).meta.summary rfl rfl ?_
    intro e he
    obtain ⟨inp, _, rfl⟩ := List.mem_map.mp he
    exact summaryOf_sums tok temp inp

/-- C2 (amended): the batch file, token and bucket aggregates equal the
sums over exactly the summary entries whose error field is null; the
successful count equals the number of entries whose error field is falsy
(null or the empty string), which can exceed the number of error-free
entries when an exception str is empty. -/
theorem C2_aggregate_equals_sums (tok : String → Nat) (temp : String)
    (inputs : List RepoInput) :
    (process_multiple_repositories tok temp
          inputs).meta.summary.successful_repositories_processed
        = ((process_multiple_repositories tok temp inputs).meta.repositories.filter
            fun e => errFalsy e.error).length ∧
    (process_multiple_repositories tok temp inputs).meta.summary.total_files_across_all_repos
        = (((process_multiple_repositories tok temp inputs).meta.repositories.filter
              fun e => e.error.isNone).map fun e => e.total_files).sum ∧
    (process_multiple_repositories tok temp inputs).meta.summary.total_tokens_across_all_repos
        = (((process_multiple_repositories tok temp inputs).meta.repositories.filter
              fun e => e.error.isNone).map fun e => e.total_tokens).sum ∧
    (process_multiple_repositories tok temp
          inputs).meta.summary.by_extension_across_all_repos
        = ((process_multiple_repositories tok temp inputs).meta.repositories.filter
              fun e => e.error.isNone).foldl
            (fun acc e => addOptByExt acc e.by_extension) ByExt.zero := by
  obtain ⟨e1, e2, e3⟩ := sums_falsy_eq_isNone tok temp inputs
  rw [process_multiple_char]
  dsimp only
  obtain ⟨h1, h2, h3, h4, h5⟩ :=
    foldl_aggAdd_char (inputs.map (summaryOf tok temp)) (batchInit inputs.length).meta.summary
  refine ⟨?_, ?_, ?_, ?_⟩
  · rw [h2]
    dsimp [batchInit]
    omega
  · rw [h3, ← e1]
    dsimp [batchInit]
    omega
  · rw [h4, ← e2]
    dsimp [batchInit]
    omega
  · rw [h5, ← e3 ByExt.zero]
    rfl

/-- C2 counterexample: with one repository whose clone raises an
exception with empty str, the successful count is 1 although zero summary
entries carry no error (the lone entry has error = some ""), refuting the
claim that the successful count equals the count over error-free reports. -/
theorem C2_counterexample :
    (process_multiple_repositories tok0 "tmp"
        [⟨"https://example.com/empty-msg.git", .error "", true, ""⟩]
      ).meta.summary.successful_repositories_processed = 1 ∧
    ((process_multiple_repositories tok0 "tmp"
        [⟨"https://example.com/empty-msg.git", .error "", true, ""⟩]
      ).meta.repositories.filter fun e => e.error.isNone).length = 0 ∧
    (process_multiple_repositories tok0 "tmp"
        [⟨"https://example.com/empty-msg.git", .error "", true, ""⟩]
      ).meta.repositories.map (fun e => e.error) = [some ""] := by
  decide

/-- C3 (amended): on any exception during fetch or scan,
process_repository returns a reduced report carrying the repository
metadata, the error string and zero counts, but lacking the directory,
by_extension and files fields of the success-shaped report. -/
theorem C3_error_report_shape (tok : String → Nat) (url temp e : String) :
    process_repository tok url temp (.error e) =
      ⟨none, ⟨deriveRepoName url, url⟩, some e, 0, 0, none, none⟩ :=
  rfl

/-- C3 counterexample: the failure-shaped report is not shaped identically
to the success-shaped report: on failure the by_extension, files and
directory keys are absent, while a success report carries all of them. -/
theorem C3_counterexample :
    (process_repository tok0 "https://example.com/repo.git" "tmp"
        (.error "boom")).by_extension = none ∧
    (process_repository tok0 "https://example.com/repo.git" "tmp"
        (.error "boom")).files = none ∧
    (process_repository tok0 "https://example.com/repo.git" "tmp"
        (.error "boom")).directory = none ∧
    (process_repository tok0 "https://example.com/repo.git" "tmp"
        (.ok [])).by_extension = some ByExt.zero ∧
    (process_repository tok0 "https://example.com/repo.git" "tmp"
        (.ok [])).files = some [] ∧
    (process_repository tok0 "https://example.com/repo.git" "tmp"
        (.ok [])).directory = some "repo" := by
  decide

/-- C4: the sys.exit(1) paths (missing file, missing directory, batch
mode without output) do exit non-zero, but in batch mode with zero
successfully processed repositories main returns 1 and the module entry
point discards that value, so the process exits 0, contradicting the
claimed non-zero exit. -/
theorem C4_exit_code_divergence :
    mainResult tok0 (.celestiaRepos
        (some [⟨"https://example.com/broken.git", .error "clone failed", true, ""⟩])
        (some "meta_index.json") "tmp" true) = .ok (some 1) ∧
    processExitCode (mainResult tok0 (.celestiaRepos
        (some [⟨"https://example.com/broken.git", .error "clone failed", true, ""⟩])
        (some "meta_index.json") "tmp" true)) = 0 ∧
    (process_multiple_repositories tok0 "tmp"
        [⟨"https://example.com/broken.git", .error "clone failed", true, ""⟩]
      ).meta.summary.successful_repositories_processed = 0 ∧
    processExitCode (mainResult tok0 (.celestiaRepos
        (some [⟨"https://example.com/broken.git", .error "clone failed", true, ""⟩])
        none "tmp" true)) = 1 ∧
    processExitCode (mainResult tok0 (.file "missing.go" none)) = 1 ∧
    processExitCode (mainResult tok0 (.directory "nodir" none)) = 1 ∧
    processExitCode (mainResult tok0 (.directory "afile" (some none))) = 1 := by
  decide

/-- C5 (amended): in batch mode, one summary entry per URL is appended in
list order, each pointing at repository_data/(name).json; the full report
is persisted at that path exactly when the processor reported no error
and the dump succeeds; and counts are folded into the aggregate only for
entries with a falsy error field. -/
theorem C5_batch_per_url (tok : String → Nat) (temp : String) (inputs : List RepoInput) :
    ((process_multiple_repositories tok temp inputs).meta.repositories
        = inputs.map (summaryOf tok temp)) ∧
    (∀ inp ∈ inputs,
      (summaryOf tok temp inp).data_file
          = "repository_data/" ++ deriveRepoName inp.url ++ ".json" ∧
      ((process_repository tok inp.url temp inp.fetch).error = none → inp.saveOk = true →
        ("repository_data/" ++ deriveRepoName inp.url ++ ".json",
            process_repository tok inp.url temp inp.fetch)
          ∈ (process_multiple_repositories tok temp inputs).writes)) ∧
    (∀ w ∈ (process_multiple_repositories tok temp inputs).writes,
      ∃ inp ∈ inputs,
        (process_repository tok inp.url temp inp.fetch).error = none ∧
          inp.saveOk = true ∧
          w = ("repository_data/" ++ deriveRepoName inp.url ++ ".json",
              process_repository tok inp.url temp inp.fetch)) ∧
    ((process_multiple_repositories tok temp
          inputs).meta.summary.successful_repositories_processed
        = ((process_multiple_repositories tok temp inputs).meta.repositories.filter
            fun e => errFalsy e.error).length ∧
      (process_multiple_repositories tok temp inputs).meta.summary.total_files_across_all_repos
        = (((process_multiple_repositories tok temp inputs).meta.repositories.filter
              fun e => errFalsy e.error).map fun e => e.total_files).sum ∧
      (process_multiple_repositories tok temp inputs).meta.summary.total_tokens_across_all_repos
        = (((process_multiple_repositories tok temp inputs).meta.repositories.filter
              fun e => errFalsy e.error).map fun e => e.total_tokens).sum) := by
  obtain ⟨h1, h2, h3, h4, h5⟩ :=
    foldl_aggAdd_char (inputs.map (summaryOf tok temp)) (batchInit inputs.length).meta.summary
  refine ⟨?_, fun inp hinp => ⟨(summaryOf_fields tok temp inp).2.2, fun hok hsave => ?_⟩,
    fun w hw => ?_, ?_, ?_, ?_⟩
  · rw [process_multiple_char]
  · rw [process_multiple_char]
    dsimp only
    exact List.mem_filterMap.mpr ⟨inp, hinp, writeEvent_of_success tok temp inp hok hsave⟩
  · rw [process_multiple_char] at hw
    dsimp only at hw
    obtain ⟨inp, hinp, hwe⟩ := List.mem_filterMap.mp hw
    obtain ⟨hok, hsave, heq⟩ := writeEvent_inv tok temp inp w hwe
    exact ⟨inp, hinp, hok, hsave, heq⟩
  · rw [process_multiple_char]
    dsimp only
    rw [h2]
    dsimp [batchInit]
    omega
  · rw [process_multiple_char]
    dsimp only
    rw [h3]
    dsimp [batchInit]
    omega
  · rw [process_multiple_char]
    dsimp only
    rw [h4]
    dsimp [batchInit]
    omega

/-- C5 witness: a successfully processed and saved repository produces a
persisted detail file entry in the writes list. -/
theorem C5_witness :
    ("repository_data/" ++ deriveRepoName "https://example.com/good.git" ++ ".json",
        process_repository tok0 "https://example.com/good.git" "tmp" (.ok []))
      ∈ (process_multiple_repositories tok0 "tmp"
          [⟨"https://example.com/good.git", .ok [], true, ""⟩]).writes :=
  ((C5_batch_per_url tok0 "tmp" [⟨"https://example.com/good.git", .ok [], true, ""⟩]).2.1
      ⟨"https://example.com/good.git", .ok [], true, ""⟩ (by simp)).2 rfl rfl

/-- C5 counterexample: a repository whose clone fails produces no
persisted detail file, although a summary entry for it is appended, so
the claim that every URL has its report persisted fails. -/
theorem C5_counterexample :
    (process_multiple_repositories tok0 "tmp"
        [⟨"https://example.com/broken.git", .error "clone failed", true, ""⟩]).writes = [] ∧
    (process_multiple_repositories tok0 "tmp"
        [⟨"https://example.com/broken.git", .error "clone failed", true, ""⟩]
      ).meta.repositories.length = 1 := by
  decide

/-- C6: a glob-matched file appears in the files list exactly when its
token count is strictly positive; every recorded entry has a positive
count; a file that no pattern matches (such as .txt) or whose count is
zero (unreadable or zero tokens) leaves the whole report unchanged; the
totals count exactly the positive-count visited files and sum their
counts; each extension bucket holds exactly the positive-count files of
its own pattern group and the sum of their counts; and appending a
matched file with strictly positive count adds one to total_files, its
count to total_tokens, and bumps exactly its own extension bucket. -/
theorem C6_positive_count_gate (tok : String → Nat) (dp : String)
    (listing : List SrcFile) (f g : SrcFile) :
    (f ∈ orderedFiles listing →
      (fileRecordOf tok f ∈ (process_directory tok dp listing).files ↔
        0 < (count_tokens_in_file tok f).1)) ∧
    (∀ fr ∈ (process_directory tok dp listing).files, 0 < fr.tokens) ∧
    ((g.suffix ∉ globPatterns ∨ (count_tokens_in_file tok g).1 = 0) →
      process_directory tok dp (listing ++ [g]) = process_directory tok dp listing) ∧
    ((process_directory tok dp listing).total_files
        = (orderedFiles listing).countP fun x => 0 < (count_tokens_in_file tok x).1) ∧
    ((process_directory tok dp listing).total_tokens
        = ((orderedFiles listing).map fun x => (count_tokens_in_file tok x).1).sum) ∧
    ((process_directory tok dp listing).by_extension
        = ⟨groupBucket tok (extGroup listing ".go"), groupBucket tok (extGroup listing ".md"),
           groupBucket tok (extGroup listing ".rs"),
           groupBucket tok (extGroup listing ".sol")⟩) ∧
    (g.suffix ∈ globPatterns → 0 < (count_tokens_in_file tok g).1 →
      (process_directory tok dp (listing ++ [g])).total_files
          = (process_directory tok dp listing).total_files + 1 ∧
        (process_directory tok dp (listing ++ [g])).total_tokens
          = (process_directory tok dp listing).total_tokens
              + (count_tokens_in_file tok g).1 ∧
        (process_directory tok dp (listing ++ [g])).by_extension
          = (process_directory tok dp listing).by_extension.bump g.suffix
              (count_tokens_in_file tok g).1) := by
  have hfiles : (process_directory tok dp listing).files
      = (orderedFiles listing).filterMap (recordedFile tok) := by
    unfold process_directory
    rw [foldl_dirStep_files]
    simp [dirInit]
  have hpos : ∀ fr ∈ (process_directory tok dp listing).files, 0 < fr.tokens := by
    intro fr hfr
    rw [hfiles] at hfr
    obtain ⟨x, _, hrec⟩ := List.mem_filterMap.mp hfr
    unfold recordedFile at hrec
    by_cases hp : 0 < (count_tokens_in_file tok x).1
    · rw [if_pos hp] at hrec
      cases Option.some_inj.mp hrec
      exact hp
    · rw [if_neg hp] at hrec
      exact absurd hrec (by simp)
  refine ⟨fun hf => ⟨fun hmem => ?_, fun hp => ?_⟩, hpos, fun hg => ?_,
    process_directory_total_files_char tok dp listing,
    process_directory_total_tokens_char tok dp listing,
    process_directory_byext_char tok dp listing, fun hgp hcnt => ?_⟩
  · simpa [fileRecordOf] using hpos _ hmem
  · rw [hfiles]
    exact List.mem_filterMap.mpr ⟨f, hf, by unfold recordedFile; rw [if_pos hp]⟩
  · unfold process_directory orderedFiles
    exact foldl_dirStep_append_single tok g listing globPatterns (dirInit dp) hg.symm
  · have hbump : (process_directory tok dp (listing ++ [g])).by_extension
        = (process_directory tok dp listing).by_extension.bump g.suffix
            (count_tokens_in_file tok g).1 := by
      rw [process_directory_byext_char, process_directory_byext_char]
      have hgrp : ∀ p : String, extGroup (listing ++ [g]) p
          = extGroup listing p ++ List.filter (fun x => x.suffix == p) [g] := by
        intro p
        unfold extGroup
        rw [List.filter_append]
      have hgp4 := hgp
      simp only [globPatterns, List.mem_cons, List.not_mem_nil, or_false] at hgp4
      rcases hgp4 with h | h | h | h <;>
        rw [hgrp ".go", hgrp ".md", hgrp ".rs", hgrp ".sol"] <;>
        simp [List.filter_cons, h, ByExt.bump, groupBucket, List.countP_append,
          List.countP_cons, List.sum_append, hcnt, beq_iff_eq]
    refine ⟨?_, ?_, hbump⟩
    · rw [(process_directory_sums tok dp (listing ++ [g])).1, hbump,
        (ByExt_bump_sums hgp ((process_directory tok dp listing).by_extension)
          (count_tokens_in_file tok g).1).1,
        (process_directory_sums tok dp listing).1]
    · rw [(process_directory_sums tok dp (listing ++ [g])).2, hbump,
        (ByExt_bump_sums hgp ((process_directory tok dp listing).by_extension)
          (count_tokens_in_file tok g).1).2,
        (process_directory_sums tok dp listing).2]

/-- C6 witness: appending a positive-count .go file to a listing adds one
file and its token count to the totals and bumps the .go bucket. -/
theorem C6_witness :
    (process_directory tok0 "d"
        ([⟨"README.md", ".md", some "# Title"⟩] ++ [⟨"main.go", ".go", some "package main"⟩])
      ).total_files
        = (process_directory tok0 "d" [⟨"README.md", ".md", some "# Title"⟩]).total_files + 1 ∧
    (process_directory tok0 "d"
        ([⟨"README.md", ".md", some "# Title"⟩] ++ [⟨"main.go", ".go", some "package main"⟩])
      ).total_tokens
        = (process_directory tok0 "d" [⟨"README.md", ".md", some "# Title"⟩]).total_tokens
            + (count_tokens_in_file tok0 ⟨"main.go", ".go", some "package main"⟩).1 ∧
    (process_directory tok0 "d"
        ([⟨"README.md", ".md", some "# Title"⟩] ++ [⟨"main.go", ".go", some "package main"⟩])
      ).by_extension
        = (process_directory tok0 "d" [⟨"README.md", ".md", some "# Title"⟩]).by_extension.bump
            ".go" (count_tokens_in_file tok0 ⟨"main.go", ".go", some "package main"⟩).1 :=
  (C6_positive_count_gate tok0 "d" [⟨"README.md", ".md", some "# Title"⟩]
      ⟨"README.md", ".md", some "# Title"⟩ ⟨"main.go", ".go", some "package main"⟩
    ).2.2.2.2.2.2 (by decide) (by decide)

/-- C7: for a missing file the counter surfaces a not-found error; for
any existing file it never fails; and for an allowed extension whose read
fails it warns and returns a zero count with the extension. -/
theorem C7_file_counter_asymmetry (tok : String → Nat) (file_path : String) (f : SrcFile) :
    count_tokens_in_file_checked tok file_path none
        = .error ("File not found: " ++ file_path) ∧
    count_tokens_in_file_checked tok file_path (some f)
        = .ok (count_tokens_in_file tok f) ∧
    (pyLower f.suffix ∈ allowedExtensions → f.content = none →
      count_tokens_in_file tok f = (0, pyLower f.suffix) ∧
        count_tokens_in_file_warns f = true) := by
  refine ⟨rfl, rfl, fun hext hc => ⟨?_, ?_⟩⟩
  · unfold count_tokens_in_file
    dsimp only
    rw [if_pos hext, hc]
  · unfold count_tokens_in_file_warns
    rw [hc]
    simp [hext]

/-- C7 witness: a .go file whose read raises a decode error yields a zero
count with a warning, without raising. -/
theorem C7_witness :
    count_tokens_in_file tok0 ⟨"a.go", ".go", none⟩ = (0, pyLower ".go") ∧
      count_tokens_in_file_warns ⟨"a.go", ".go", none⟩ = true :=
  (C7_file_counter_asymmetry tok0 "a.go" ⟨"a.go", ".go", none⟩).2.2 (by decide) rfl

/-- C8 (amended): the derived local name equals the trailing path segment
of the URL with every occurrence of the substring ".git" removed (which
strips the suffix in the common case but also removes interior
occurrences), and that same name is used for the clone target directory,
the repository name of the report, and the per-repository data file. -/
theorem C8_name_consistency (tok : String → Nat) (temp url : String)
    (fetch : Except String (List SrcFile)) (inputs : List RepoInput) (i : Nat)
    (hi : i < inputs.length) :
    deriveRepoName url
        = ⟨pyReplaceList ".git".data [] ((url.data.splitOn '/').getLastD [])⟩ ∧
    (process_repository tok url temp fetch).repository.name = deriveRepoName url ∧
    clone_repository_target temp url = temp ++ "/" ++ deriveRepoName url ∧
    ((process_multiple_repositories tok temp inputs).meta.repositories.getD i
          dummyRepoSummary).name = deriveRepoName (inputs.get ⟨i, hi⟩).url ∧
    ((process_multiple_repositories tok temp inputs).meta.repositories.getD i
          dummyRepoSummary).data_file
        = "repository_data/" ++ deriveRepoName (inputs.get ⟨i, hi⟩).url ++ ".json" := by
  have hs := summaryOf_fields tok temp (inputs.get ⟨i, hi⟩)
  rw [repositories_getD tok temp inputs i hi]
  exact ⟨rfl, by rw [process_repository_repository], rfl, hs.1, hs.2.2⟩

/-- C8 witness: the consistent name for a concrete batch entry. -/
theorem C8_witness :
    ((process_multiple_repositories tok0 "tmp"
        [⟨"https://example.com/app.git", .ok [], true, ""⟩]).meta.repositories.getD 0
        dummyRepoSummary).name
      = deriveRepoName "https://example.com/app.git" :=
  (C8_name_consistency tok0 "tmp" "https://example.com/app.git" (.ok [])
      [⟨"https://example.com/app.git", .ok [], true, ""⟩] 0 (by decide)).2.2.2.1

/-- C8 counterexample: replace removes every occurrence of ".git", not
just a trailing suffix: for a my.github.io style repository the derived
name is "myhub.io", not the suffix-stripped "my.github.io". -/
theorem C8_counterexample :
    deriveRepoName "https://github.com/org/my.github.io.git" = "myhub.io" ∧
    deriveRepoNameSpec "https://github.com/org/my.github.io.git" = "my.github.io" ∧
    deriveRepoName "https://github.com/org/my.github.io.git"
      ≠ deriveRepoNameSpec "https://github.com/org/my.github.io.git" := by
  decide

/-- C9: a repository whose processing returns an error gets no detail
file written in its own iteration, yet its meta-index entry still points
at repository_data/(name).json; provided no same-named repository was
successfully saved, that path is absent from the writes, so the pointer
refers to a file that does not exist. -/
theorem C9_dangling_data_file (tok : String → Nat) (temp : String)
    (inputs : List RepoInput) (i : Nat) (hi : i < inputs.length)
    (_herr : ((process_repository tok (inputs.get ⟨i, hi⟩).url temp
        (inputs.get ⟨i, hi⟩).fetch).error).isSome = true) :
    ((process_multiple_repositories tok temp inputs).meta.repositories.getD i
          dummyRepoSummary).data_file
        = "repository_data/" ++ deriveRepoName (inputs.get ⟨i, hi⟩).url ++ ".json" ∧
    ((∀ inp2 ∈ inputs, deriveRepoName inp2.url = deriveRepoName (inputs.get ⟨i, hi⟩).url →
        (process_repository tok inp2.url temp inp2.fetch).error = none → False) →
      ∀ rep : RepoReport,
        ("repository_data/" ++ deriveRepoName (inputs.get ⟨i, hi⟩).url ++ ".json", rep)
          ∉ (process_multiple_repositories tok temp inputs).writes) := by
  constructor
  · rw [repositories_getD tok temp inputs i hi]
    exact (summaryOf_fields tok temp _).2.2
  · intro huniq rep hmem
    rw [process_multiple_char] at hmem
    dsimp only at hmem
    obtain ⟨inp2, hinp2, hwe⟩ := List.mem_filterMap.mp hmem
    obtain ⟨he2, _, heq⟩ := writeEvent_inv tok temp inp2 _ hwe
    have hp : "repository_data/" ++ deriveRepoName (inputs.get ⟨i, hi⟩).url ++ ".json"
        = "repository_data/" ++ deriveRepoName inp2.url ++ ".json" :=
      congrArg Prod.fst heq
    exact huniq inp2 hinp2 (repoDataPath_inj hp).symm he2

/-- C9 witness: the dangling data_file pointer of a failed repository. -/
theorem C9_witness :
    ((process_multiple_repositories tok0 "tmp"
        [⟨"https://example.com/bad.git", .error "boom", true, ""⟩]).meta.repositories.getD 0
        dummyRepoSummary).data_file
      = "repository_data/" ++ deriveRepoName "https://example.com/bad.git" ++ ".json" :=
  (C9_dangling_data_file tok0 "tmp" [⟨"https://example.com/bad.git", .error "boom", true, ""⟩]
      0 (by decide) (by decide)).1

/-- C10: if a repository is processed successfully but saving its detail
file fails, its summary entry carries the concatenated save-failure error
message, which is never falsy, so the repository is excluded from the
successful count and its counts from the aggregate totals (which sum only
falsy-error entries). -/
theorem C10_save_failure_excluded (tok : String → Nat) (temp : String)
    (inputs : List RepoInput) (i : Nat) (hi : i < inputs.length)
    (hok : (process_repository tok (inputs.get ⟨i, hi⟩).url temp
        (inputs.get ⟨i, hi⟩).fetch).error = none)
    (hsave : (inputs.get ⟨i, hi⟩).saveOk = false) :
    ((process_multiple_repositories tok temp inputs).meta.repositories.getD i
          dummyRepoSummary).error
        = some ("; Failed to save individual JSON: " ++ (inputs.get ⟨i, hi⟩).saveErr) ∧
    errFalsy (((process_multiple_repositories tok temp inputs).meta.repositories.getD i
          dummyRepoSummary).error) = false ∧
    ((process_multiple_repositories tok temp
          inputs).meta.summary.successful_repositories_processed
        = ((process_multiple_repositories tok temp inputs).meta.repositories.filter
            fun e => errFalsy e.error).length ∧
      (process_multiple_repositories tok temp inputs).meta.summary.total_files_across_all_repos
        = (((process_multiple_repositories tok temp inputs).meta.repositories.filter
              fun e => errFalsy e.error).map fun e => e.total_files).sum ∧
      (process_multiple_repositories tok temp inputs).meta.summary.total_tokens_across_all_repos
        = (((process_multiple_repositories tok temp inputs).meta.repositories.filter
              fun e => errFalsy e.error).map fun e => e.total_tokens).sum) := by
  have key : ∀ inp : RepoInput,
      (process_repository tok inp.url temp inp.fetch).error = none → inp.saveOk = false →
      (summaryOf tok temp inp).error
        = some ("; Failed to save individual JSON: " ++ inp.saveErr) := by
    rintro ⟨url, e | l, (_ | _), sErr⟩ h1 h2
    · exact Option.noConfusion h1
    · exact Option.noConfusion h1
    · rw [summaryOf_fetch_ok_unsaved]
    · exact Bool.noConfusion h2
  have hkey := key (inputs.get ⟨i, hi⟩) hok hsave
  obtain ⟨h1, h2, h3, h4, h5⟩ :=
    foldl_aggAdd_char (inputs.map (summaryOf tok temp)) (batchInit inputs.length).meta.summary
  refine ⟨?_, ?_, ?_, ?_, ?_⟩
  · rw [repositories_getD tok temp inputs i hi]
    exact hkey
  · rw [repositories_getD tok temp inputs i hi, hkey]
    unfold errFalsy
    exact beq_eq_false_iff_ne.mpr (saveFailMsg_ne_empty _)
  · rw [process_multiple_char]
    dsimp only
    rw [h2]
    dsimp [batchInit]
    omega
  · rw [process_multiple_char]
    dsimp only
    rw [h3]
    dsimp [batchInit]
    omega
  · rw [process_multiple_char]
    dsimp only
    rw [h4]
    dsimp [batchInit]
    omega

/-- C10 witness: a concrete save failure is recorded as a non-falsy
error on the summary entry. -/
theorem C10_witness :
    ((process_multiple_repositories tok0 "tmp"
        [⟨"https://example.com/app.git", .ok [], false, "disk full"⟩]).meta.repositories.getD 0
        dummyRepoSummary).error
      = some ("; Failed to save individual JSON: " ++ "disk full") :=
  (C10_save_failure_excluded tok0 "tmp"
      [⟨"https://example.com/app.git", .ok [], false, "disk full"⟩] 0 (by decide) rfl rfl).1

end Tokenmetry
